import Mathlib

/-!
Verification development for the Knee_Scraper web crawler (src/lib.rs).

The development shallowly embeds the crawler's core: the URL/link
normalization pipeline (`normalize_link`, `extract_links`,
`extract_domain`), the content gate (`should_scrape_content`), and the
two traversal engines (`recursive_scrape`, unconditional depth-first
recursion, and `rec_scrape`, phrase-gated breadth-first search with a
run-global depth counter).  External collaborators (the `url` crate's
parser/joiner, the `scraper` crate's anchor/href extraction, the HTTP
client) are modelled as explicit Lean functions or as an abstract
`World` supplying fetch results; everything else is translated from the
Rust source line by line.  Rust's recursion and `while` loop become
fuel-indexed structural recursion; running out of fuel is reported
through a distinguished outcome so that genuine termination is
observable.
-/

namespace KneeScraper

/-! ## Model of the external URL library -/

/-- Modelled from the spec: the `url` crate's parsed-URL value used by the
source (`reqwest::Url`), restricted to the parts the crawler observes —
scheme, optional host, and path ("a normalized absolute address
(scheme+host+path)"). -/
structure UrlT where
  scheme : String
  host : Option String
  path : String
deriving DecidableEq, Repr

/-- Modelled from the spec: characters admissible in a URL scheme after the
leading alphabetic character. -/
def isSchemeChar (c : Char) : Bool :=
  c.isAlpha || c.isDigit || c = '+' || c = '-' || c = '.'

/-- Modelled from the spec: splits `scheme ':' rest` returning the scheme
characters (accumulated in reverse in `acc`) and the remainder; fails when
no colon terminates a well-formed scheme. -/
def schemeSplit : List Char → List Char → Option (List Char × List Char)
  | _, [] => none
  | acc, c :: cs =>
    if c = ':' then some (acc.reverse, cs)
    else if isSchemeChar c then schemeSplit (c :: acc) cs
    else none

/-- Modelled from the spec: the `url` crate's `Url::parse`.  A URL is
`scheme ':' [ "//" host path ]`; the scheme starts with a letter, the
authority form requires a non-empty host (the crate's `EmptyHost` error for
the schemes the crawler uses), an empty path after an authority is
normalized to `"/"`, and a scheme-only reference without `"//"` parses as a
host-less (cannot-be-a-base) URL.  `none` models a parse error — in the
source, `Url::parse(...)` returning `Err`. -/
def parseUrl (s : String) : Option UrlT :=
  match s.toList with
  | [] => none
  | c :: cs =>
    if c.isAlpha then
      match schemeSplit [c] cs with
      | some (sch, rest) =>
        let scheme := String.mk (sch.map Char.toLower)
        match rest with
        | '/' :: '/' :: r =>
          let hostChars := r.takeWhile (fun ch => !(ch = '/' || ch = '?' || ch = '#'))
          let after := r.drop hostChars.length
          if hostChars = [] then none
          else some ⟨scheme, some (String.mk hostChars),
                     if after = [] then "/" else String.mk after⟩
        | _ => some ⟨scheme, none, String.mk rest⟩
      | none => none
    else none

/-- Modelled from the spec: the `url` crate's `Url::to_string` on the
fragment of URLs the model represents. -/
def urlToString (u : UrlT) : String :=
  match u.host with
  | some h => u.scheme ++ "://" ++ h ++ u.path
  | none => u.scheme ++ ":" ++ u.path

/-- Modelled from the spec: the directory prefix of a path — everything up
to and including the last `'/'` — used when merging a relative reference
with the base path per standard URL-resolution rules. -/
def dirname (p : String) : String :=
  let rev := p.toList.reverse
  String.mk (rev.drop (rev.takeWhile (fun c => c ≠ '/')).length).reverse

/-- Modelled from the spec: the `url` crate's `Url::join` ("relative hrefs
are joined to the base per standard URL-resolution rules").  An empty
reference yields the base; a network-path reference `"//host..."` takes the
base's scheme and fails on an empty host (the crate's `EmptyHost` error);
an absolute-path reference replaces the base's path; a reference with its
own scheme parses as an absolute URL; any other reference is merged with
the base path's directory.  `none` models `Url::join` returning `Err`. -/
def joinUrl (base : UrlT) (link : String) : Option UrlT :=
  match link.toList with
  | [] => some base
  | '/' :: '/' :: r =>
    let hostChars := r.takeWhile (fun ch => !(ch = '/' || ch = '?' || ch = '#'))
    let after := r.drop hostChars.length
    if hostChars = [] then none
    else some ⟨base.scheme, some (String.mk hostChars),
               if after = [] then "/" else String.mk after⟩
  | '/' :: r => some { base with path := String.mk ('/' :: r) }
  | _ :: _ =>
    match parseUrl link with
    | some u => some u
    | none => some { base with path := dirname base.path ++ link }

/-! ## Model of the external HTML parser (href extraction) -/

/-- Modelled from the spec: reads characters up to the next occurrence of
the quote character `q`, returning the content and the remainder; fails
when the quote is never closed. -/
def spanUntil (q : Char) : List Char → Option (List Char × List Char)
  | [] => none
  | c :: cs =>
    if c = q then some ([], cs)
    else (spanUntil q cs).map (fun p => (c :: p.1, p.2))

/-- Modelled from the spec: the `scraper` crate's selection of `a[href]`
elements — "parses all hyperlink-bearing elements' href-equivalent
attributes".  The scanner walks the markup; the flag records whether it is
inside an `<a ...>` tag, where a quoted `href=` attribute value is
collected.  The fuel argument (instantiated with the input length, an
upper bound on the number of steps) makes the recursion structural. -/
def scanHrefs : Nat → Bool → List Char → List String
  | 0, _, _ => []
  | _, _, [] => []
  | f + 1, false, '<' :: 'a' :: ' ' :: rest => scanHrefs f true rest
  | f + 1, false, _ :: rest => scanHrefs f false rest
  | f + 1, true, '>' :: rest => scanHrefs f false rest
  | f + 1, true, 'h' :: 'r' :: 'e' :: 'f' :: '=' :: '\'' :: rest =>
    (match spanUntil '\'' rest with
     | some (v, r) => String.mk v :: scanHrefs f true r
     | none => [])
  | f + 1, true, 'h' :: 'r' :: 'e' :: 'f' :: '=' :: '"' :: rest =>
    (match spanUntil '"' rest with
     | some (v, r) => String.mk v :: scanHrefs f true r
     | none => [])
  | f + 1, true, _ :: rest => scanHrefs f true rest

/-- Modelled from the spec: the href attribute values of the anchor
elements of a markup string, in document order. -/
def extractHrefs (html : String) : List String :=
  scanHrefs html.length false html.toList

/-- Modelled from the spec: Rust's `str::contains` — "case-sensitive
substring containment check" — on character lists. -/
def subListAt (n : List Char) : List Char → Bool
  | [] => n.isEmpty
  | c :: t => n.isPrefixOf (c :: t) || subListAt n t

/-- Modelled from the spec: Rust's `String::contains(target)` used by the
Content Matcher. -/
def strContains (hay needle : String) : Bool :=
  subListAt needle.toList hay.toList

/-- Modelled from the spec: Rust's `str::starts_with(prefix)`, on
character lists. -/
def strStartsWith (s pre : String) : Bool :=
  pre.toList.isPrefixOf s.toList

/-! ## Source-translated pure functions (src/lib.rs) -/

/-- Translation of `user_agents` inside `random_user_agent`
(src/lib.rs lines 29–34): the predefined user-agent list. -/
def user_agents : List String :=
  ["Mozilla/5.0 (Windows NT 10.0; Win64; x64)...",
   "Mozilla/5.0 (Macintosh; Intel Mac OS X 10_15_7)...",
   "Mozilla/5.0 (iPhone; CPU iPhone OS 14_6 like Mac OS X)..."]

/-- Translation of `random_user_agent` (src/lib.rs lines 28–38); the draw
of `rand::random::<usize>()` is passed explicitly as `r`. -/
def random_user_agent (r : Nat) : String :=
  (user_agents.getD (r % user_agents.length) "")

/-- Translation of `normalize_link` (src/lib.rs lines 151–160): an input
starting with `"http"` is returned unchanged; otherwise the base is parsed
and joined, a failed join yielding `String::default()` (the empty string)
via `unwrap_or_default`, and an unparseable base returning the link
as-is. -/
def normalize_link (link base_url : String) : String :=
  if strStartsWith link "http" then link
  else
    match parseUrl base_url with
    | some base => ((joinUrl base link).map urlToString).getD ""
    | none => link

/-- Translation of the `HashSet::insert` step of `extract_links`: list-based
set insertion keeping first occurrences. -/
def insertUniq (l : List String) (x : String) : List String :=
  if x ∈ l then l else l ++ [x]

/-- Translation of `extract_links` (src/lib.rs lines 120–132): every href
attribute of an `a[href]` element is normalized against the base URL and
inserted into the result set. -/
def extract_links (html base_url : String) : List String :=
  (extractHrefs html).foldl (fun urls link => insertUniq urls (normalize_link link base_url)) []

/-- Translation of `extract_domain` (src/lib.rs lines 351–354):
`Url::parse(url).expect("Invalid URL")` followed by
`host_str().unwrap_or("unknown_domain")`.  The `none` result models the
`expect` panic on an unparseable URL. -/
def extract_domain (url : String) : Option String :=
  (parseUrl url).map (fun u => u.host.getD "unknown_domain")

/-- Translation of `should_scrape_content` (src/lib.rs lines 667–669):
case-sensitive substring containment. -/
def should_scrape_content (content target_phrase : String) : Bool :=
  strContains content target_phrase

/-- Translation of `ScraperConfig` (src/lib.rs lines 671–675); `max_depth`
is an `i32` in the source, carried as an unbounded integer here (the
crawler only compares it and increments the depth counter). -/
structure ScraperConfig where
  follow_links : Bool
  max_depth : Int
  user_agent : Option String
deriving DecidableEq, Repr

/-! ## The fetch environment -/

/-- Outcome of one call of the Fetcher, as the traversal code observes it:
`sendErr` is `request.send()` returning `Err` (including reqwest rejecting
an unparseable URL at request building), and `resp` carries the HTTP
status check `status().is_success()` together with the result of
`response.text()` (whose `Err` is a body-read failure). -/
inductive FetchResult where
  | sendErr (cause : String)
  | resp (statusSuccess : Bool) (text : Except String String)
deriving Repr

/-- Abstract environment of one traversal run: the network (what each GET
returns) and the random number stream consumed by `random_user_agent`. -/
structure World where
  fetch : String → FetchResult
  rand : Nat → Nat

/-- Whether a fetch of `u` fails before any markup is obtained (send error
or body-read error) — the two error branches of `recursive_scrape`. -/
def isFailFetch (w : World) (u : String) : Bool :=
  match w.fetch u with
  | .sendErr _ => true
  | .resp _ (.error _) => true
  | .resp _ (.ok _) => false

/-! ## Mode A: `recursive_scrape` (unconditional depth-first recursion) -/

/-- How a (fuel-bounded) mode-A run ended: `done` is normal completion,
`panicked` models a Rust panic unwinding the whole call tree (the
`extract_domain` `expect` inside `scrape_content`), `fuelOut` means the
model's fuel was exhausted before the run finished (an artifact of the
embedding, never a statement about the Rust code). -/
inductive Outcome where
  | done
  | panicked
  | fuelOut
deriving DecidableEq, Repr

/-- State threaded through the mode-A recursion: the caller-owned visited
set (`HashSet<String>`, newest first), the fetch trace (each issued GET
with the User-Agent header it carried), the two error sinks
(`log_error_to_file` and `eprintln!`), the count of random draws consumed,
and the run outcome. -/
structure ASt where
  visited : List String
  trace : List (String × Option String)
  errLog : List String
  errOut : List String
  rcount : Nat
  outcome : Outcome
deriving DecidableEq, Repr

/-- Translation of the two error branches of `recursive_scrape`
(src/lib.rs lines 86–97): `eprintln!` followed by `log_error_to_file`. -/
def logErr (m : String) (st : ASt) : ASt :=
  { st with errOut := st.errOut ++ [m], errLog := st.errLog ++ [m] }

/-- Translation of lines 67–70 of `recursive_scrape`: insert the URL into
the visited set, then issue the GET carrying the freshly drawn random
User-Agent (the fetch is recorded in the trace). -/
def visitUpd (url : String) (ua : String) (st : ASt) : ASt :=
  { st with visited := url :: st.visited,
            rcount := st.rcount + 1,
            trace := st.trace ++ [(url, some ua)] }

/-- Translation of `recursive_scrape` (src/lib.rs lines 58–100), fuel-
indexed (the fuel bounds the recursion depth; the Rust original places no
such bound on its call stack).  If the URL is already visited, return;
otherwise insert it, fetch with a random User-Agent, and on success run
the content side effects — of which only `scrape_content`'s
`extract_domain` panic is observable to the traversal (`extract_domain
url` is `none` exactly when `Url::parse(url)` fails and the `expect`
panics) — then recurse into each extracted link not yet visited,
threading the shared visited set (the `for link in links` loop of lines
80–84, folded left to right).  Send and body-read errors are logged to
both sinks and stop only this node.  A non-`done` outcome short-circuits
every later step, modelling the unwinding of a panic (and the exhaustion
of fuel). -/
def recursive_scrape (w : World) : Nat → String → ASt → ASt
  | 0, _, st => { st with outcome := .fuelOut }
  | fuel + 1, url, st =>
    if st.outcome ≠ .done then st
    else if url ∈ st.visited then st
    else
      let ua := random_user_agent (w.rand st.rcount)
      let st1 := visitUpd url ua st
      match w.fetch url with
      | .sendErr e => logErr ("Failed to request '" ++ url ++ "': " ++ e) st1
      | .resp _ (.error e) =>
        logErr ("Failed to get HTML content from '" ++ url ++ "': " ++ e) st1
      | .resp _ (.ok html) =>
        if (extract_domain url).isSome then
          (extract_links html url).foldl
            (fun acc link => if link ∈ acc.visited then acc else recursive_scrape w fuel link acc)
            st1
        else { st1 with outcome := .panicked }

/-- State of a fresh mode-A traversal run (empty visited set, as in `run`
and the demo binary). -/
def initASt : ASt := ⟨[], [], [], [], 0, .done⟩

/-- One whole mode-A traversal run from a seed URL. -/
def runA (w : World) (fuel : Nat) (url : String) : ASt :=
  recursive_scrape w fuel url initASt

/-! ## Mode B: `rec_scrape` (depth-bounded, phrase-gated BFS) -/

/-- State threaded through the mode-B loop: the Frontier Queue (front
first), the Visited Set, the run-global Depth Counter (`current_depth`,
an `i32` starting at 0), the fetch trace (each issued GET with the
User-Agent header it carried), the expansion history — one entry per
execution of the links-following branch, recording the page and the links
it enqueued (a ghost field: it changes no control flow) — and the two
error sinks (which `rec_scrape` never writes). -/
structure BSt where
  queue : List String
  visited : List String
  depth : Int
  trace : List (String × Option String)
  expansions : List (String × List String)
  errLog : List String
  errOut : List String
deriving DecidableEq, Repr

/-- Translation of the body of `rec_scrape`'s `while` loop (src/lib.rs
lines 614–656) for one dequeued URL `cur`: skip if visited; otherwise mark
visited and fetch with the configured User-Agent (or none).  A send error,
a non-success status, or a body-read error silently skips the URL
(`continue`, no logging).  On success, if the target phrase is found and
`follow_links` holds and the depth counter is below `max_depth`, enqueue
every extracted link not yet visited and increment the depth counter —
even when no link was enqueued; otherwise nothing is enqueued. -/
def stepB (w : World) (fl : Bool) (md : Int) (ua : Option String) (tp : String)
    (cur : String) (st : BSt) : BSt :=
  if cur ∈ st.visited then st
  else
    let st := { st with visited := cur :: st.visited, trace := st.trace ++ [(cur, ua)] }
    match w.fetch cur with
    | .sendErr _ => st
    | .resp statusOk text =>
      if statusOk then
        match text with
        | .error _ => st
        | .ok html =>
          if should_scrape_content html tp then
            if fl && decide (st.depth < md) then
              let newLinks := (extract_links html cur).filter (fun l => !st.visited.contains l)
              { st with queue := st.queue ++ newLinks,
                        expansions := st.expansions ++ [(cur, newLinks)],
                        depth := st.depth + 1 }
            else st
          else st
      else st

/-- Translation of `rec_scrape`'s `while let Some(current_url) =
queue.pop_front()` loop (src/lib.rs lines 613–657), fuel-indexed: dequeue
and process until the Frontier Queue is empty (or fuel runs out, an
artifact of the embedding). -/
def recScrapeLoop (w : World) (fl : Bool) (md : Int) (ua : Option String) (tp : String) :
    Nat → BSt → BSt
  | 0, st => st
  | fuel + 1, st =>
    match st.queue with
    | [] => st
    | cur :: rest => recScrapeLoop w fl md ua tp fuel (stepB w fl md ua tp cur { st with queue := rest })

/-- Translation of `rec_scrape` (src/lib.rs lines 603–658): the queue is
seeded with the start URL, the depth counter starts at 0, and the
configuration defaults are read exactly as the source does —
`config.map_or(true, follow_links)`, `config.map_or(3, max_depth)`,
`config.and_then(user_agent)`. -/
def rec_scrape (w : World) (config : Option ScraperConfig) (tp : String)
    (fuel : Nat) (url : String) (vis : List String) : BSt :=
  recScrapeLoop w ((config.map ScraperConfig.follow_links).getD true)
    ((config.map ScraperConfig.max_depth).getD 3)
    (config.bind ScraperConfig.user_agent) tp fuel
    ⟨[url], vis, 0, [], [], [], []⟩

/-! ## Invariant machinery -/

/-- A predicate preserved by every step of a left fold is preserved by the
whole fold. -/
theorem foldl_preserve {α β : Type} {f : β → α → β} {P : β → Prop}
    (h : ∀ b a, P b → P (f b a)) : ∀ (l : List α) (b : β), P b → P (l.foldl f b) := by
  intro l
  induction l with
  | nil => intro b hb; simpa using hb
  | cons a t ih => intro b hb; simpa using ih _ (h _ _ hb)

/-- Every predicate preserved by the four primitive state changes of
`recursive_scrape` — running out of fuel, panicking, a failed fetch of an
unvisited URL followed by logging to both sinks, and a successful fetch of
an unvisited URL — is an invariant of the whole mode-A traversal. -/
theorem recA_inv (w : World) (P : ASt → Prop)
    (hfuel : ∀ st, P st → P { st with outcome := Outcome.fuelOut })
    (hpanic : ∀ st, P st → P { st with outcome := Outcome.panicked })
    (hfail : ∀ st url r m, url ∉ st.visited → isFailFetch w url = true →
      P st → P (logErr m (visitUpd url (random_user_agent r) st)))
    (hok : ∀ st url r, url ∉ st.visited → isFailFetch w url = false →
      P st → P (visitUpd url (random_user_agent r) st)) :
    ∀ fuel url st, P st → P (recursive_scrape w fuel url st) := by
  intro fuel
  induction fuel with
  | zero =>
    intro url st h
    rw [recursive_scrape]
    exact hfuel st h
  | succ n ih =>
    intro url st h
    rw [recursive_scrape]
    by_cases hout : st.outcome ≠ Outcome.done
    · rw [if_pos hout]; exact h
    · rw [if_neg hout]
      by_cases hv : url ∈ st.visited
      · rw [if_pos hv]; exact h
      · rw [if_neg hv]
        cases hf : w.fetch url with
        | sendErr e =>
          exact hfail st url (w.rand st.rcount) _ hv (by simp [isFailFetch, hf]) h
        | resp s t =>
          cases t with
          | error e =>
            exact hfail st url (w.rand st.rcount) _ hv (by simp [isFailFetch, hf]) h
          | ok html =>
            have hok' := hok st url (w.rand st.rcount) hv (by simp [isFailFetch, hf]) h
            dsimp only
            by_cases hd : (extract_domain url).isSome
            · rw [if_pos hd]
              refine foldl_preserve (fun acc link hacc => ?_) _ _ hok'
              by_cases hl : link ∈ acc.visited
              · rwa [if_pos hl]
              · rw [if_neg hl]; exact ih link acc hacc
            · rw [if_neg hd]; exact hpanic _ hok'

/-- Case analysis of one mode-B loop body on a dequeued URL: either the URL
was already visited and the state is untouched, or it is marked visited and
fetched, after which either nothing else changes, or — exactly when the
fetch succeeded, the phrase matched, links are being followed and the depth
counter is below the bound — the unvisited extracted links are enqueued,
the expansion is recorded, and the depth counter is incremented. -/
theorem stepB_shape (w : World) (fl : Bool) (md : Int) (ua : Option String) (tp : String)
    (cur : String) (st : BSt) :
    (cur ∈ st.visited ∧ stepB w fl md ua tp cur st = st) ∨
    (cur ∉ st.visited ∧
      ((stepB w fl md ua tp cur st =
          { st with visited := cur :: st.visited, trace := st.trace ++ [(cur, ua)] }) ∨
       (∃ html,
          w.fetch cur = FetchResult.resp true (Except.ok html) ∧
          should_scrape_content html tp = true ∧
          fl = true ∧ st.depth < md ∧
          stepB w fl md ua tp cur st =
            { st with
                visited := cur :: st.visited,
                trace := st.trace ++ [(cur, ua)],
                queue := st.queue ++ (extract_links html cur).filter
                  (fun l => !(cur :: st.visited).contains l),
                expansions := st.expansions ++
                  [(cur, (extract_links html cur).filter (fun l => !(cur :: st.visited).contains l))],
                depth := st.depth + 1 }))) := by
  by_cases hv : cur ∈ st.visited
  · left
    exact ⟨hv, by rw [stepB, if_pos hv]⟩
  · right
    refine ⟨hv, ?_⟩
    rw [stepB, if_neg hv]
    cases hf : w.fetch cur with
    | sendErr e => left; rfl
    | resp s t =>
      cases s with
      | false => left; simp
      | true =>
        cases t with
        | error e => left; simp
        | ok html =>
          dsimp only
          by_cases hm : should_scrape_content html tp = true
          · by_cases hg : (fl && decide (st.depth < md)) = true
            · right
              refine ⟨html, rfl, hm, ?_, ?_, ?_⟩
              · exact (Bool.and_eq_true _ _ ▸ hg).1
              · exact of_decide_eq_true (Bool.and_eq_true _ _ ▸ hg).2
              · simp [hm, hg]
            · left; simp [hm, hg]
          · left; simp [hm]

/-- Every predicate preserved by processing one dequeued URL is an
invariant of the whole mode-B loop. -/
theorem recB_inv (w : World) (fl : Bool) (md : Int) (ua : Option String) (tp : String)
    (P : BSt → Prop)
    (hstep : ∀ st cur rest, st.queue = cur :: rest →
      P st → P (stepB w fl md ua tp cur { st with queue := rest })) :
    ∀ fuel st, P st → P (recScrapeLoop w fl md ua tp fuel st) := by
  intro fuel
  induction fuel with
  | zero => intro st h; rw [recScrapeLoop]; exact h
  | succ n ih =>
    intro st h
    rw [recScrapeLoop]
    cases hq : st.queue with
    | nil => exact h
    | cons cur rest => exact ih _ (hstep st cur rest hq h)

/-! ## Supporting lemmas about links and prefixes -/

/-- An element inserted into a set-list is a member of the result. -/
theorem mem_insertUniq_self (l : List String) (x : String) : x ∈ insertUniq l x := by
  rw [insertUniq]
  split_ifs with h
  · exact h
  · simp

/-- Insertion into a set-list preserves membership. -/
theorem mem_insertUniq_of_mem {l : List String} {x : String} (y : String) (h : x ∈ l) :
    x ∈ insertUniq l y := by
  rw [insertUniq]
  split_ifs
  · exact h
  · simp [h]

/-- The set-building fold of `extract_links` keeps the accumulator's
members and contains the image of every element of the input list. -/
theorem foldl_insertUniq_mem (f : String → String) :
    ∀ (l acc : List String),
      (∀ x ∈ acc, x ∈ l.foldl (fun urls link => insertUniq urls (f link)) acc) ∧
      (∀ a ∈ l, f a ∈ l.foldl (fun urls link => insertUniq urls (f link)) acc) := by
  intro l
  induction l with
  | nil => intro acc; exact ⟨fun x hx => by simpa using hx, by simp⟩
  | cons b t ih =>
    intro acc
    constructor
    · intro x hx
      simpa [List.foldl_cons] using (ih (insertUniq acc (f b))).1 x (mem_insertUniq_of_mem _ hx)
    · intro a ha
      rcases List.mem_cons.mp ha with h | h
      · subst h
        simpa [List.foldl_cons] using
          (ih (insertUniq acc (f a))).1 (f a) (mem_insertUniq_self _ _)
      · simpa [List.foldl_cons] using (ih (insertUniq acc (f b))).2 a h

/-- Every href of the markup contributes its normalization to the result
of `extract_links`: no individual link aborts extraction of the rest. -/
theorem mem_extract_links_of_href {html base href : String} (h : href ∈ extractHrefs html) :
    normalize_link href base ∈ extract_links html base := by
  rw [extract_links]
  exact (foldl_insertUniq_mem (fun l => normalize_link l base) (extractHrefs html) []).2 href h

/-- A link whose join against a parsed base fails normalizes to the empty
string (`unwrap_or_default`). -/
theorem normalize_link_join_fail {link base : String} {b : UrlT}
    (h1 : strStartsWith link "http" = false) (h2 : parseUrl base = some b)
    (h3 : joinUrl b link = none) : normalize_link link base = "" := by
  rw [normalize_link, if_neg (by simp [h1]), h2]
  dsimp only
  rw [h3]
  rfl

/-- A string beginning with `"http://"` or `"https://"` begins with
`"http"`. -/
theorem strStartsWith_http {link : String}
    (h : strStartsWith link "http://" = true ∨ strStartsWith link "https://" = true) :
    strStartsWith link "http" = true := by
  rcases h with h | h <;>
  · rw [strStartsWith] at h ⊢
    exact List.isPrefixOf_iff_prefix.mpr
      (List.IsPrefix.trans (by decide) (List.isPrefixOf_iff_prefix.mp h))

/-- Every draw of `random_user_agent` yields an element of the predefined
user-agent list. -/
theorem random_user_agent_mem (r : Nat) : random_user_agent r ∈ user_agents := by
  have hl : user_agents.length = 3 := rfl
  have h : r % user_agents.length = 0 ∨ r % user_agents.length = 1 ∨
      r % user_agents.length = 2 := by
    have := Nat.mod_lt r (show 0 < user_agents.length by decide)
    omega
  rcases h with h | h | h <;> rw [random_user_agent, h] <;> decide

/-- A mode-A step on an unvisited URL whose fetch succeeds and whose own
URL parses: the state is updated with the visit and the traversal folds
over the extracted links. -/
theorem recA_step_ok (w : World) (fuel : Nat) (url : String) (st : ASt) (s : Bool)
    (html : String) (hout : st.outcome = Outcome.done) (hv : url ∉ st.visited)
    (hf : w.fetch url = FetchResult.resp s (Except.ok html))
    (hd : (extract_domain url).isSome = true) :
    recursive_scrape w (fuel + 1) url st =
      (extract_links html url).foldl
        (fun acc link => if link ∈ acc.visited then acc else recursive_scrape w fuel link acc)
        (visitUpd url (random_user_agent (w.rand st.rcount)) st) := by
  rw [recursive_scrape, if_neg (by simp [hout]), if_neg hv, hf]
  dsimp only
  rw [if_pos hd]

/-- If the network rejects every unparseable URL at request building — as
reqwest does: `client.get(url)` stores the `Url::parse` failure and
`send()` returns it as an error — then no mode-A traversal ever reaches
the `extract_domain` panic: `scrape_content` only runs for URLs whose
fetch succeeded, hence parseable ones. -/
theorem recA_no_panic (w : World)
    (hw : ∀ u, parseUrl u = none → ∃ e, w.fetch u = FetchResult.sendErr e) :
    ∀ fuel url st, st.outcome ≠ Outcome.panicked →
      (recursive_scrape w fuel url st).outcome ≠ Outcome.panicked := by
  intro fuel
  induction fuel with
  | zero =>
    intro url st h
    rw [recursive_scrape]
    simp
  | succ n ih =>
    intro url st h
    rw [recursive_scrape]
    by_cases hout : st.outcome ≠ Outcome.done
    · rw [if_pos hout]; exact h
    · rw [if_neg hout]
      push_neg at hout
      by_cases hv : url ∈ st.visited
      · rw [if_pos hv]; exact h
      · rw [if_neg hv]
        cases hf : w.fetch url with
        | sendErr e => simp [logErr, visitUpd, hout]
        | resp s t =>
          cases t with
          | error e => simp [logErr, visitUpd, hout]
          | ok html =>
            dsimp only
            by_cases hd : (extract_domain url).isSome
            · rw [if_pos hd]
              refine @foldl_preserve _ _ _ (fun st' : ASt => st'.outcome ≠ Outcome.panicked)
                (fun acc link hacc => ?_) _ _ (by simp [visitUpd, hout])
              by_cases hl : link ∈ acc.visited
              · rwa [if_pos hl]
              · rw [if_neg hl]; exact ih link acc hacc
            · exfalso
              have hnone : parseUrl url = none := by
                rcases h' : parseUrl url with _ | u
                · rfl
                · rw [extract_domain, h'] at hd; simp at hd
              rcases hw url hnone with ⟨e, he⟩
              rw [hf] at he
              exact FetchResult.noConfusion he

/-! ## Concrete worlds used as test inputs -/

/-- Three distinct absolute URLs. -/
def urlA : String := "https://a.example/"

/-- Three distinct absolute URLs. -/
def urlB : String := "https://b.example/"

/-- Three distinct absolute URLs. -/
def urlC : String := "https://c.example/"

/-- The synthetic 3-node cycle A→B→C→A of spec §8: every fetch succeeds
and each page links exactly to the next node. -/
def cycleWorld : World :=
  ⟨fun u =>
    if u = urlA then .resp true (.ok "<a href='https://b.example/'>x</a>")
    else if u = urlB then .resp true (.ok "<a href='https://c.example/'>x</a>")
    else if u = urlC then .resp true (.ok "<a href='https://a.example/'>x</a>")
    else .sendErr "unreachable",
   fun _ => 0⟩

/-- A world for the phrase gate: page A contains the phrase `"target"` and
links to B and C; page B lacks the phrase but carries a valid link to a
fourth URL; page C contains the phrase and no links. -/
def gateWorld : World :=
  ⟨fun u =>
    if u = urlA then
      .resp true (.ok "target <a href='https://b.example/'>x</a><a href='https://c.example/'>y</a>")
    else if u = urlB then .resp true (.ok "nothing <a href='https://d.example/'>z</a>")
    else if u = urlC then .resp true (.ok "target")
    else .sendErr "unreachable",
   fun _ => 0⟩

/-- A world whose only page contains the phrase `"target"` and no links at
all. -/
def noLinksWorld : World :=
  ⟨fun u =>
    if u = urlA then .resp true (.ok "target")
    else .sendErr "unreachable",
   fun _ => 0⟩

/-- A world where every fetch fails with a transport error. -/
def errWorld : World := ⟨fun _ => .sendErr "connection refused", fun _ => 0⟩

/-- A world where the seed page matches and links to B and C, the fetch of
B fails with a transport error, and C matches with no links. -/
def failSiblingWorld : World :=
  ⟨fun u =>
    if u = urlA then
      .resp true (.ok "target <a href='https://b.example/'>x</a><a href='https://c.example/'>y</a>")
    else if u = urlB then .sendErr "connection refused"
    else if u = urlC then .resp true (.ok "target")
    else .sendErr "unreachable",
   fun _ => 0⟩

/-- A world faithful to reqwest's URL validation: the seed page carries the
single href `"//"` (whose join against the base fails, normalizing to the
empty string), and every other URL — in particular the empty string, which
does not parse — fails at request building with a transport-level error. -/
def badLinkWorld : World :=
  ⟨fun u =>
    if u = urlA then .resp true (.ok "<a href='//'>x</a>")
    else .sendErr "builder error: relative URL without a base",
   fun _ => 0⟩

/-! ## Claims -/

/-- Recording one fetch of a not-yet-visited URL — appending it to the
trace while prepending it to the visited set — preserves the no-duplicate-
fetch invariant. -/
theorem trace_extend_inv {tr : List (String × Option String)} {vis : List String}
    (cur : String) (x : Option String)
    (h1 : (tr.map Prod.fst).Nodup) (h2 : ∀ u ∈ tr.map Prod.fst, u ∈ vis) (hv : cur ∉ vis) :
    (((tr ++ [(cur, x)]).map Prod.fst).Nodup ∧
      ∀ u ∈ (tr ++ [(cur, x)]).map Prod.fst, u ∈ cur :: vis) := by
  refine ⟨?_, ?_⟩
  · simp only [List.map_append, List.map_cons, List.map_nil]
    rw [List.nodup_append]
    refine ⟨h1, List.nodup_singleton _, ?_⟩
    intro u hu hu'
    simp only [List.mem_singleton] at hu'
    subst hu'
    exact hv (h2 u hu)
  · intro u hu
    simp only [List.map_append, List.map_cons, List.map_nil,
      List.mem_append, List.mem_singleton] at hu
    rcases hu with hu | hu
    · exact List.mem_cons_of_mem _ (h2 u hu)
    · subst hu; exact List.mem_cons_self _ _

/-- Claim C1: in both traversal modes every distinct URL is fetched at most
once per run — the trace of issued GETs has no duplicate URL — and both
modes insert the URL into the Visited Set before the fetch is issued, so
every URL appearing in the fetch trace is in the final Visited Set. -/
theorem claim_C1_at_most_once_fetch :
    (∀ (w : World) (fuel : Nat) (seed : String),
      ((runA w fuel seed).trace.map Prod.fst).Nodup ∧
      ∀ u ∈ (runA w fuel seed).trace.map Prod.fst, u ∈ (runA w fuel seed).visited) ∧
    (∀ (w : World) (config : Option ScraperConfig) (tp : String) (fuel : Nat)
        (seed : String) (vis : List String),
      ((rec_scrape w config tp fuel seed vis).trace.map Prod.fst).Nodup ∧
      ∀ u ∈ (rec_scrape w config tp fuel seed vis).trace.map Prod.fst,
        u ∈ (rec_scrape w config tp fuel seed vis).visited) := by
  constructor
  · intro w fuel seed
    refine recA_inv w
      (fun st => (st.trace.map Prod.fst).Nodup ∧ ∀ u ∈ st.trace.map Prod.fst, u ∈ st.visited)
      (fun st h => h) (fun st h => h) ?_ ?_ fuel seed initASt
      ⟨by simp [initASt], by simp [initASt]⟩
    · intro st url r m hv hff h
      exact trace_extend_inv url (some (random_user_agent r)) h.1 h.2 hv
    · intro st url r hv hff h
      exact trace_extend_inv url (some (random_user_agent r)) h.1 h.2 hv
  · intro w config tp fuel seed vis
    refine recB_inv w _ _ _ tp
      (fun st => (st.trace.map Prod.fst).Nodup ∧ ∀ u ∈ st.trace.map Prod.fst, u ∈ st.visited)
      ?_ fuel _ ⟨by simp, by simp⟩
    intro st cur rest hq h
    rcases stepB_shape w _ _ _ tp cur { st with queue := rest } with ⟨hv, he⟩ | ⟨hv, he⟩
    · rw [he]; exact h
    · rcases he with he | ⟨html, hf, hm, hfl, hdp, he⟩ <;>
      · rw [he]
        exact trace_extend_inv cur _ h.1 h.2 hv

/-- Claim C1 witness: on the concrete cycle world, the seed URL of a run is
fetched and is a member of the final Visited Set. -/
theorem claim_C1_witness : urlA ∈ (runA cycleWorld 12 urlA).visited :=
  (claim_C1_at_most_once_fetch.1 cycleWorld 12 urlA).2 urlA (by decide)

/-- Claim C3: normalizing `"/about"` against base `"https://example.com"`
yields exactly `"https://example.com/about"`; a link that is already
absolute (it starts with `"http://"` or `"https://"`) is returned
unchanged for every base; and extracting links from
`<a href='/about'>x</a>` against that base yields the set containing
exactly `"https://example.com/about"`. -/
theorem claim_C3_normalize_and_extract :
    normalize_link "/about" "https://example.com" = "https://example.com/about" ∧
    (∀ link base,
      (strStartsWith link "http://" = true ∨ strStartsWith link "https://" = true) →
      normalize_link link base = link) ∧
    extract_links "<a href='/about'>x</a>" "https://example.com" =
      ["https://example.com/about"] := by
  refine ⟨by decide, ?_, by decide⟩
  intro link base h
  rw [normalize_link, if_pos (strStartsWith_http h)]

/-- Claim C3 witness: the absolute link `"https://other.com"` is returned
unchanged by normalization against `"https://example.com"`. -/
theorem claim_C3_witness :
    normalize_link "https://other.com" "https://example.com" = "https://other.com" :=
  claim_C3_normalize_and_extract.2.1 "https://other.com" "https://example.com"
    (Or.inr (by decide))

/-- Claim C4 counterexample: the href `"//"` fails to resolve against base
`"https://example.com"` (its join fails with an empty host), yet it is not
dropped from the result of `extract_links` — it contributes the empty
string to the returned set, contradicting the claim that a failed link
contributes no element. -/
theorem claim_C4_counterexample :
    "//" ∈ extractHrefs "<a href='//'>x</a>" ∧
    joinUrl ⟨"https", some "example.com", "/"⟩ "//" = none ∧
    normalize_link "//" "https://example.com" = "" ∧
    "" ∈ extract_links "<a href='//'>x</a>" "https://example.com" := by
  decide

/-- Claim C4 as amended: a href whose resolution against the base fails
does not abort extraction of the remaining links — every href of the
markup contributes its normalization to the result — but instead of
contributing no element, a failed href contributes the empty string
(`unwrap_or_default`) to the returned set. -/
theorem claim_C4_amended_failed_href :
    (∀ html base href, href ∈ extractHrefs html →
      normalize_link href base ∈ extract_links html base) ∧
    (∀ link base b, strStartsWith link "http" = false → parseUrl base = some b →
      joinUrl b link = none →
      normalize_link link base = "" ∧
      ∀ html, link ∈ extractHrefs html → "" ∈ extract_links html base) := by
  refine ⟨fun html base href h => mem_extract_links_of_href h, ?_⟩
  intro link base b h1 h2 h3
  have hz := normalize_link_join_fail h1 h2 h3
  refine ⟨hz, fun html hm => ?_⟩
  have hmm := @mem_extract_links_of_href html base link hm
  rwa [hz] at hmm

/-- Claim C4 witness: instantiating the amended claim on the markup
`<a href='//'>x</a>` and base `"https://example.com"`. -/
theorem claim_C4_witness :
    normalize_link "//" "https://example.com" = "" ∧
    "" ∈ extract_links "<a href='//'>x</a>" "https://example.com" := by
  have h := claim_C4_amended_failed_href.2 "//" "https://example.com"
    ⟨"https", some "example.com", "/"⟩ (by decide) (by decide) (by decide)
  exact ⟨h.1, h.2 "<a href='//'>x</a>" (by decide)⟩

/-- Claim C5: in gated BFS mode with `maxDepth = 0`, for every world,
target phrase and initial visited set, no expansion ever happens — so no
link is ever enqueued — and every URL processed (fetched) during the run
is the seed. -/
theorem claim_C5_maxdepth_zero (w : World) (c : ScraperConfig) (tp : String)
    (fuel : Nat) (seed : String) (vis : List String) (hmd : c.max_depth = 0) :
    (rec_scrape w (some c) tp fuel seed vis).expansions = [] ∧
    ∀ e ∈ (rec_scrape w (some c) tp fuel seed vis).trace, e.1 = seed := by
  have eq : rec_scrape w (some c) tp fuel seed vis =
      recScrapeLoop w c.follow_links c.max_depth c.user_agent tp fuel
        ⟨[seed], vis, 0, [], [], [], []⟩ := by
    rw [rec_scrape]
    rfl
  rw [eq]
  have key := recB_inv w c.follow_links c.max_depth c.user_agent tp
    (fun st => st.expansions = [] ∧ 0 ≤ st.depth ∧ (∀ q ∈ st.queue, q = seed) ∧
      ∀ e ∈ st.trace, e.1 = seed)
    ?_ fuel ⟨[seed], vis, 0, [], [], [], []⟩ ⟨rfl, le_refl 0, by simp, by simp⟩
  · exact ⟨key.1, key.2.2.2⟩
  · intro st cur rest hq h
    obtain ⟨hE, hD, hQ, hT⟩ := h
    have hcur : cur = seed := hQ cur (by rw [hq]; exact List.mem_cons_self _ _)
    have hQ' : ∀ q ∈ rest, q = seed := fun q hqm =>
      hQ q (by rw [hq]; exact List.mem_cons_of_mem _ hqm)
    rcases stepB_shape w c.follow_links c.max_depth c.user_agent tp cur
        { st with queue := rest } with ⟨hv, he⟩ | ⟨hv, he⟩
    · rw [he]; exact ⟨hE, hD, hQ', hT⟩
    · rcases he with he | ⟨html, hf, hm, hfl, hdp, he⟩
      · rw [he]
        refine ⟨hE, hD, hQ', ?_⟩
        intro e hme
        rcases List.mem_append.mp hme with hme | hme
        · exact hT e hme
        · simp only [List.mem_singleton] at hme
          rw [hme]
          exact hcur
      · exfalso
        rw [hmd] at hdp
        dsimp only at hdp
        omega

/-- Claim C5 witness: with `maxDepth = 0` on the gate world — whose seed
page matches the phrase and carries two valid links — nothing is expanded
and only the seed is fetched. -/
theorem claim_C5_witness :
    (rec_scrape gateWorld (some ⟨true, 0, none⟩) "target" 10 urlA []).expansions = [] ∧
    ∀ e ∈ (rec_scrape gateWorld (some ⟨true, 0, none⟩) "target" 10 urlA []).trace,
      e.1 = urlA :=
  claim_C5_maxdepth_zero gateWorld ⟨true, 0, none⟩ "target" 10 urlA [] rfl

/-- Claim C6: a successfully fetched page whose body does not contain the
target phrase contributes nothing to the Frontier Queue and does not
advance the Depth Counter: every recorded expansion belongs to a page
whose fetch succeeded with a matching body, and the depth counter equals
the number of recorded expansions.  Concretely, on the gate world the
non-matching page B (which carries a valid link) is fetched but expands
nothing, its link is never visited, and the already-enqueued sibling C is
still processed after B. -/
theorem claim_C6_nonmatching_page :
    (∀ (w : World) (config : Option ScraperConfig) (tp : String) (fuel : Nat)
        (seed : String) (vis : List String),
      (∀ e ∈ (rec_scrape w config tp fuel seed vis).expansions,
        ∃ html, w.fetch e.1 = FetchResult.resp true (Except.ok html) ∧
          should_scrape_content html tp = true) ∧
      (rec_scrape w config tp fuel seed vis).depth =
        ((rec_scrape w config tp fuel seed vis).expansions.length : Int)) ∧
    ((rec_scrape gateWorld none "target" 10 urlA []).trace.map Prod.fst =
        [urlA, urlB, urlC] ∧
      (rec_scrape gateWorld none "target" 10 urlA []).expansions.map Prod.fst =
        [urlA, urlC]) := by
  constructor
  · intro w config tp fuel seed vis
    rw [rec_scrape]
    have key := recB_inv w ((config.map ScraperConfig.follow_links).getD true)
      ((config.map ScraperConfig.max_depth).getD 3)
      (config.bind ScraperConfig.user_agent) tp
      (fun st =>
        (∀ e ∈ st.expansions,
          ∃ html, w.fetch e.1 = FetchResult.resp true (Except.ok html) ∧
            should_scrape_content html tp = true) ∧
        st.depth = (st.expansions.length : Int))
      ?_ fuel ⟨[seed], vis, 0, [], [], [], []⟩ ⟨by simp, by simp⟩
    · exact key
    · intro st cur rest hq h
      obtain ⟨hX, hD⟩ := h
      rcases stepB_shape w _ _ _ tp cur { st with queue := rest } with ⟨hv, he⟩ | ⟨hv, he⟩
      · rw [he]; exact ⟨hX, hD⟩
      · rcases he with he | ⟨html, hf, hm, hfl, hdp, he⟩
        · rw [he]; exact ⟨hX, hD⟩
        · rw [he]
          refine ⟨?_, ?_⟩
          · intro e hme
            rcases List.mem_append.mp hme with hme | hme
            · exact hX e hme
            · simp only [List.mem_singleton] at hme
              rw [hme]
              exact ⟨html, hf, hm⟩
          · dsimp only
            rw [hD]
            simp only [List.length_append, List.length_cons, List.length_nil]
            push_cast
            ring
  · constructor
    · decide
    · decide

/-- Claim C6 witness: the gate world's seed page is recorded as an
expansion, and indeed its fetch succeeded with a body containing the
phrase. -/
theorem claim_C6_witness :
    ∃ html, gateWorld.fetch urlA = FetchResult.resp true (Except.ok html) ∧
      should_scrape_content html "target" = true :=
  claim_C6_nonmatching_page.1 gateWorld none "target" 10 urlA []
    |>.1 (urlA, [urlB, urlC]) (by decide)

/-- Claim C7 counterexample: on the world whose sole page matches the
phrase but contains no links, the depth counter is nevertheless
incremented — it ends at 1 although the run enqueued no link at all,
contradicting the claim that the counter is advanced only when at least
one page's links are actually enqueued. -/
theorem claim_C7_counterexample :
    (rec_scrape noLinksWorld none "target" 5 urlA []).depth = 1 ∧
    ((rec_scrape noLinksWorld none "target" 5 urlA []).expansions.map Prod.snd).flatten =
      [] := by
  decide

/-- Claim C7 as amended: the Depth Counter is a single integer scoped to
the whole run (not tracked per URL); it is incremented exactly once per
expansion event — a successfully fetched matching page processed while
links are being followed below the depth bound — regardless of whether
that event actually enqueued any links; in particular it ends equal to
the number of expansion events of the run.  Concretely, a matching page
with no links still advances it. -/
theorem claim_C7_depth_counter :
    (∀ (w : World) (config : Option ScraperConfig) (tp : String) (fuel : Nat)
        (seed : String) (vis : List String),
      (rec_scrape w config tp fuel seed vis).depth =
        ((rec_scrape w config tp fuel seed vis).expansions.length : Int)) ∧
    (rec_scrape noLinksWorld none "target" 5 urlA []).expansions = [(urlA, [])] := by
  constructor
  · intro w config tp fuel seed vis
    rw [rec_scrape]
    have key := recB_inv w ((config.map ScraperConfig.follow_links).getD true)
      ((config.map ScraperConfig.max_depth).getD 3)
      (config.bind ScraperConfig.user_agent) tp
      (fun st => st.depth = (st.expansions.length : Int))
      ?_ fuel ⟨[seed], vis, 0, [], [], [], []⟩ (by simp)
    · exact key
    · intro st cur rest hq hD
      rcases stepB_shape w _ _ _ tp cur { st with queue := rest } with ⟨hv, he⟩ | ⟨hv, he⟩
      · rw [he]; exact hD
      · rcases he with he | ⟨html, hf, hm, hfl, hdp, he⟩
        · rw [he]; exact hD
        · rw [he]
          dsimp only
          rw [hD]
          simp only [List.length_append, List.length_cons, List.length_nil]
          push_cast
          ring
  · decide

/-- Claim C2: in unconditional recursive mode, for every world realizing a
3-node cycle A→B→C→A of distinct parseable URLs — every fetch succeeds and
each page's extracted links are exactly the next node — the traversal
started at A completes (it does not run out of the fuel bounding the
embedding, i.e. it terminates), and each of A, B, C is inserted into the
Visited Set exactly once and fetched exactly once. -/
theorem claim_C2_cycle_terminates (w : World) (A B C bA bB bC : String)
    (hAB : A ≠ B) (hAC : A ≠ C) (hBC : B ≠ C)
    (hfA : w.fetch A = FetchResult.resp true (Except.ok bA))
    (hfB : w.fetch B = FetchResult.resp true (Except.ok bB))
    (hfC : w.fetch C = FetchResult.resp true (Except.ok bC))
    (heA : extract_links bA A = [B])
    (heB : extract_links bB B = [C])
    (heC : extract_links bC C = [A])
    (hdA : (extract_domain A).isSome = true)
    (hdB : (extract_domain B).isSome = true)
    (hdC : (extract_domain C).isSome = true) :
    (runA w 12 A).outcome = Outcome.done ∧
    (runA w 12 A).visited = [C, B, A] ∧
    (runA w 12 A).trace.map Prod.fst = [A, B, C] := by
  have h12 : (12 : Nat) = 11 + 1 := rfl
  have h11 : (11 : Nat) = 10 + 1 := rfl
  have h10 : (10 : Nat) = 9 + 1 := rfl
  have e1 := recA_step_ok w 11 A initASt true bA rfl (by simp [initASt]) hfA hdA
  rw [heA, List.foldl_cons, List.foldl_nil] at e1
  have hB1 : B ∉ (visitUpd A (random_user_agent (w.rand initASt.rcount)) initASt).visited := by
    intro hmem
    simp only [visitUpd, initASt, List.mem_cons, List.not_mem_nil, or_false] at hmem
    exact hAB hmem.symm
  rw [if_neg hB1] at e1
  have e2 := recA_step_ok w 10 B
    (visitUpd A (random_user_agent (w.rand initASt.rcount)) initASt) true bB rfl hB1 hfB hdB
  rw [heB, List.foldl_cons, List.foldl_nil] at e2
  have hC2 : C ∉ (visitUpd B
      (random_user_agent (w.rand
        (visitUpd A (random_user_agent (w.rand initASt.rcount)) initASt).rcount))
      (visitUpd A (random_user_agent (w.rand initASt.rcount)) initASt)).visited := by
    intro hmem
    simp only [visitUpd, initASt, List.mem_cons, List.not_mem_nil, or_false] at hmem
    rcases hmem with hmem | hmem
    · exact hBC hmem.symm
    · exact hAC hmem.symm
  rw [if_neg hC2] at e2
  have e3 := recA_step_ok w 9 C
    (visitUpd B
      (random_user_agent (w.rand
        (visitUpd A (random_user_agent (w.rand initASt.rcount)) initASt).rcount))
      (visitUpd A (random_user_agent (w.rand initASt.rcount)) initASt)) true bC rfl hC2 hfC hdC
  rw [heC, List.foldl_cons, List.foldl_nil] at e3
  rw [if_pos (by simp [visitUpd, initASt])] at e3
  refine ⟨?_, ?_, ?_⟩ <;>
    rw [runA, h12, e1, h11, e2, h10, e3] <;>
    simp [visitUpd, initASt]

/-- Claim C2 witness: instantiating the cycle theorem on the concrete
3-node cycle world. -/
theorem claim_C2_witness :
    (runA cycleWorld 12 urlA).outcome = Outcome.done ∧
    (runA cycleWorld 12 urlA).visited = [urlC, urlB, urlA] ∧
    (runA cycleWorld 12 urlA).trace.map Prod.fst = [urlA, urlB, urlC] :=
  claim_C2_cycle_terminates cycleWorld urlA urlB urlC
    "<a href='https://b.example/'>x</a>"
    "<a href='https://c.example/'>x</a>"
    "<a href='https://a.example/'>x</a>"
    (by decide) (by decide) (by decide)
    rfl rfl rfl
    (by decide) (by decide) (by decide)
    (by decide) (by decide) (by decide)

/-- Claim C8 counterexample: in gated BFS mode with no configuration (so
no configured userAgent), every GET of the run — including ones on pages
that were fetched and followed — is issued with no User-Agent header at
all: `rec_scrape` never draws a random user agent, contradicting the claim
that a rotated client-identifying header is attached whenever the caller
supplies none. -/
theorem claim_C8_counterexample :
    (rec_scrape gateWorld none "target" 10 urlA []).trace =
      [(urlA, none), (urlB, none), (urlC, none)] := by
  decide

/-- Claim C8 as amended: mode A (`recursive_scrape`) attaches a randomly
drawn element of the predefined user-agent list to every GET it issues;
mode B (`rec_scrape`) attaches exactly the configured userAgent to every
GET — the configured value when present and no User-Agent header at all
when the configuration's userAgent is absent. -/
theorem claim_C8_user_agent :
    (∀ (w : World) (fuel : Nat) (seed : String),
      ∀ e ∈ (runA w fuel seed).trace, ∃ ua, e.2 = some ua ∧ ua ∈ user_agents) ∧
    (∀ (w : World) (config : Option ScraperConfig) (tp : String) (fuel : Nat)
        (seed : String) (vis : List String),
      ∀ e ∈ (rec_scrape w config tp fuel seed vis).trace,
        e.2 = config.bind ScraperConfig.user_agent) := by
  constructor
  · intro w fuel seed
    refine recA_inv w
      (fun st => ∀ e ∈ st.trace, ∃ ua, e.2 = some ua ∧ ua ∈ user_agents)
      (fun st h => h) (fun st h => h) ?_ ?_ fuel seed initASt (by simp [initASt])
    · intro st url r m hv hff h e hme
      rcases List.mem_append.mp hme with hme | hme
      · exact h e hme
      · simp only [List.mem_singleton] at hme
        rw [hme]
        exact ⟨random_user_agent r, rfl, random_user_agent_mem r⟩
    · intro st url r hv hff h e hme
      rcases List.mem_append.mp hme with hme | hme
      · exact h e hme
      · simp only [List.mem_singleton] at hme
        rw [hme]
        exact ⟨random_user_agent r, rfl, random_user_agent_mem r⟩
  · intro w config tp fuel seed vis
    rw [rec_scrape]
    refine recB_inv w ((config.map ScraperConfig.follow_links).getD true)
      ((config.map ScraperConfig.max_depth).getD 3)
      (config.bind ScraperConfig.user_agent) tp
      (fun st => ∀ e ∈ st.trace, e.2 = config.bind ScraperConfig.user_agent)
      ?_ fuel ⟨[seed], vis, 0, [], [], [], []⟩ (by simp)
    intro st cur rest hq h
    rcases stepB_shape w _ _ _ tp cur { st with queue := rest } with ⟨hv, he⟩ | ⟨hv, he⟩
    · rw [he]; exact h
    · rcases he with he | ⟨html, hf, hm, hfl, hdp, he⟩ <;>
      · rw [he]
        intro e hme
        rcases List.mem_append.mp hme with hme | hme
        · exact h e hme
        · simp only [List.mem_singleton] at hme
          rw [hme]

/-- Claim C8 witness: on the cycle world's run the first recorded GET
carries a header from the predefined list, and on a configuration-less
gated BFS run the first recorded GET carries the (absent) configured
header. -/
theorem claim_C8_witness :
    (∃ ua, ((urlA, some "Mozilla/5.0 (Windows NT 10.0; Win64; x64)...") :
        String × Option String).2 = some ua ∧ ua ∈ user_agents) ∧
    ((urlA, (none : Option String)) : String × Option String).2 =
      (none : Option ScraperConfig).bind ScraperConfig.user_agent :=
  ⟨claim_C8_user_agent.1 cycleWorld 12 urlA
      (urlA, some "Mozilla/5.0 (Windows NT 10.0; Win64; x64)...") (by decide),
   claim_C8_user_agent.2 gateWorld none "target" 10 urlA [] (urlA, none) (by decide)⟩

/-- Claim C9 counterexample: in gated BFS mode a NetworkError while
processing a URL is not logged anywhere — the run that fetches the seed
and hits a transport error leaves both the error sink and the standard
diagnostic output empty, contradicting the claim that every such error is
logged to both. -/
theorem claim_C9_counterexample :
    isFailFetch errWorld urlA = true ∧
    (rec_scrape errWorld none "target" 5 urlA []).trace.map Prod.fst = [urlA] ∧
    (rec_scrape errWorld none "target" 5 urlA []).errLog = [] ∧
    (rec_scrape errWorld none "target" 5 urlA []).errOut = [] := by
  decide

/-- Claim C9 as amended: in both modes every fetch error is handled
locally and stops only that node's expansion — no error propagates and the
traversal continues with the remaining URLs.  Mode A logs each failed
fetch once to the error sink and once to standard diagnostic output (the
two sinks receive identical lines, one per failed fetch); mode B skips the
erroring URL silently, writing nothing to either sink.  HTTP errors are
not an error path in mode A (it never inspects the status), and failed
link resolutions are dropped silently in both modes.  Concretely, a
transport error on page B stops neither mode from processing the sibling
page C afterwards. -/
theorem claim_C9_error_handling :
    (∀ (w : World) (fuel : Nat) (seed : String),
      (runA w fuel seed).errOut = (runA w fuel seed).errLog ∧
      (runA w fuel seed).errLog.length =
        ((runA w fuel seed).trace.filter (fun e => isFailFetch w e.1)).length) ∧
    (∀ (w : World) (config : Option ScraperConfig) (tp : String) (fuel : Nat)
        (seed : String) (vis : List String),
      (rec_scrape w config tp fuel seed vis).errLog = [] ∧
      (rec_scrape w config tp fuel seed vis).errOut = []) ∧
    ((runA failSiblingWorld 10 urlA).trace.map Prod.fst = [urlA, urlB, urlC] ∧
      (runA failSiblingWorld 10 urlA).outcome = Outcome.done ∧
      (runA failSiblingWorld 10 urlA).errLog.length = 1) ∧
    (rec_scrape failSiblingWorld none "target" 10 urlA []).trace.map Prod.fst =
      [urlA, urlB, urlC] := by
  refine ⟨?_, ?_, by decide, by decide⟩
  · intro w fuel seed
    refine recA_inv w
      (fun st => st.errOut = st.errLog ∧
        st.errLog.length = (st.trace.filter (fun e => isFailFetch w e.1)).length)
      (fun st h => h) (fun st h => h) ?_ ?_ fuel seed initASt (by simp [initASt])
    · intro st url r m hv hff h
      obtain ⟨h1, h2⟩ := h
      constructor
      · simp only [logErr, visitUpd, h1]
      · simp only [logErr, visitUpd, List.filter_append, List.length_append, h2]
        simp [hff]
    · intro st url r hv hff h
      obtain ⟨h1, h2⟩ := h
      constructor
      · simp only [visitUpd, h1]
      · simp only [visitUpd, List.filter_append, List.length_append, h2]
        simp [hff]
  · intro w config tp fuel seed vis
    rw [rec_scrape]
    refine recB_inv w ((config.map ScraperConfig.follow_links).getD true)
      ((config.map ScraperConfig.max_depth).getD 3)
      (config.bind ScraperConfig.user_agent) tp
      (fun st => st.errLog = [] ∧ st.errOut = [])
      ?_ fuel ⟨[seed], vis, 0, [], [], [], []⟩ ⟨rfl, rfl⟩
    intro st cur rest hq h
    rcases stepB_shape w _ _ _ tp cur { st with queue := rest } with ⟨hv, he⟩ | ⟨hv, he⟩
    · rw [he]; exact h
    · rcases he with he | ⟨html, hf, hm, hfl, hdp, he⟩ <;>
      · rw [he]; exact h

/-- Claim C10 counterexample: in the claimed scenario itself — a page
whose sole href `"//"` fails to join against its base, so that
`normalize_link` yields the empty string — the mode-A run does not abort:
the empty string is recursed on, its fetch fails at request building (as
reqwest rejects unparseable URLs), the failure is logged, and the run
completes normally; `extract_domain` is never reached with the bad input,
even though `extract_domain ""` would indeed panic. -/
theorem claim_C10_counterexample :
    (runA badLinkWorld 10 urlA).outcome = Outcome.done ∧
    (runA badLinkWorld 10 urlA).trace.map Prod.fst = [urlA, ""] ∧
    (runA badLinkWorld 10 urlA).errLog.length = 1 ∧
    extract_domain "" = none := by
  decide

/-- Claim C10 as amended: `extract_domain` is indeed not total — on the
empty string (produced by `normalize_link` when a join fails) its
`Url::parse(...).expect(...)` panics — and the empty-string link is
inserted into the extracted links and recursed on; but the panic is not
reachable through `recursive_scrape`: in every world where fetching an
unparseable URL fails at request building (reqwest's behavior), no mode-A
run ever panics, because `scrape_content` runs only for URLs whose fetch
succeeded and those always parse. -/
theorem claim_C10_panic_unreachable :
    extract_domain "" = none ∧
    normalize_link "//" urlA = "" ∧
    (∀ (w : World),
      (∀ u, parseUrl u = none → ∃ e, w.fetch u = FetchResult.sendErr e) →
      ∀ (fuel : Nat) (seed : String), (runA w fuel seed).outcome ≠ Outcome.panicked) := by
  refine ⟨by decide, by decide, ?_⟩
  intro w hw fuel seed
  exact recA_no_panic w hw fuel seed initASt (by simp [initASt])

/-- Claim C10 witness: the no-panic theorem applied to the concrete
bad-link world, whose fetch function rejects every unparseable URL. -/
theorem claim_C10_witness : (runA badLinkWorld 10 urlA).outcome ≠ Outcome.panicked := by
  refine claim_C10_panic_unreachable.2.2 badLinkWorld ?_ 10 urlA
  intro u hu
  by_cases h : u = urlA
  · subst h
    exact absurd hu (by decide)
  · exact ⟨"builder error: relative URL without a base", by simp [badLinkWorld, h]⟩

end KneeScraper
